import Mathlib

/-!
Verification development for the DataVein repository: a shallow embedding
of its data model, the augmentation engine and pipeline progress model
(modelled from the specification where the backend source is absent from
the repository snapshot), and the frontend client logic from
DataAugmentation.tsx and FileUpload.tsx, with theorems settling the
specification claims.
-/

namespace DataVein

/-! ## Data model (spec section 3) -/

/-- A cell value: numeric, string, boolean, or null (spec: Table). -/
inductive Cell
  | num (q : ℚ)
  | str (s : String)
  | bool (b : Bool)
  | null
deriving Repr, DecidableEq

/-- A row of a table. -/
abbrev Row := List Cell

/-- A table as an ordered sequence of rows (spec: equal-length columns;
rows are the units preserved by augmentation). -/
structure Table where
  rows : List Row
deriving Repr, DecidableEq

/-- Inferred column type (spec: ColumnProfile). -/
inductive InferredType
  | numeric
  | categorical
  | datetime
  | text
deriving Repr, DecidableEq

/-- Per-column statistical profile (spec: ColumnProfile). -/
structure ColumnProfile where
  name : String
  inferred_type : InferredType
  null_rate : ℚ
  mean : ℚ
  stddev : ℚ
  minVal : ℚ
  maxVal : ℚ
deriving Repr, DecidableEq

/-- Augmentation method selector (spec: AugmentationConfig.method). -/
inductive Method
  | noise_injection
  | bootstrap_sampling
  | interpolation
deriving Repr, DecidableEq

/-- Augmentation configuration (spec: AugmentationConfig). -/
structure AugmentationConfig where
  method : Method
  target_row_count : ℕ
  noise_level : ℚ
deriving Repr, DecidableEq

/-- Errors raised by the augmentation stage (spec section 7 taxonomy,
restricted to the kinds the engine itself raises). -/
inductive AugError
  | invalidConfig (msg : String)
  | engineError (msg : String)
deriving Repr, DecidableEq

/-! ## Augmentation engine

The backend engine source is not in the repository snapshot (the
repository docs mark the AUGMENT stage as a stub), so the engine is
modelled from the specification, section 4.2.  Randomness is a seedable
stream `g : ℕ → ℕ`, as the spec requires reproducible seeding. -/

/-- Modelled from the spec: a zero-mean standard noise sample drawn from
the seedable stream `g` at index `k`, uniform on the grid
\x7b-1000, ..., 1000\x7d / 1000. -/
def standardNoise (g : ℕ → ℕ) (k : ℕ) : ℚ :=
  ((g k % 2001 : ℕ) : ℚ) / 1000 - 1

/-- Modelled from the spec: noise_injection applies an additive
perturbation scaled by noise_level × column stddev to numeric cells of
numeric columns; nulls and non-numeric cells are copied verbatim (a
stddev of 0 yields a zero perturbation). -/
def perturbCell (nl : ℚ) (p : ColumnProfile) (z : ℚ) : Cell → Cell
  | Cell.num q =>
      if p.inferred_type = InferredType.numeric then Cell.num (q + nl * p.stddev * z)
      else Cell.num q
  | c => c

/-- Modelled from the spec: one noise_injection synthetic row, built from
a uniformly sampled base row with per-numeric-column perturbation. -/
def noiseRow (nl : ℚ) (profiles : List ColumnProfile) (rows : List Row)
    (g : ℕ → ℕ) (i : ℕ) : Row :=
  let base := rows.getD (g (Nat.pair i 0) % rows.length) []
  (base.zip profiles).enum.map
    (fun jc => perturbCell nl jc.2.2 (standardNoise g (Nat.pair i (jc.1 + 1))) jc.2.1)

/-- Modelled from the spec: one bootstrap_sampling synthetic row, an
independent uniform-with-replacement draw of a full source row. -/
def bootstrapRow (rows : List Row) (g : ℕ → ℕ) (i : ℕ) : Row :=
  rows.getD (g i % rows.length) []

/-- Modelled from the spec: per-column blend for interpolation.  Numeric
columns interpolate linearly at blend factor `t`; other columns take the
cell of the nearer of the two sampled rows (`t` rounded). -/
def blendCell (t : ℚ) (p : ColumnProfile) : Cell → Cell → Cell
  | Cell.num x, Cell.num y =>
      if p.inferred_type = InferredType.numeric then Cell.num (x + t * (y - x))
      else if t < 1/2 then Cell.num x else Cell.num y
  | cx, cy => if t < 1/2 then cx else cy

/-- Modelled from the spec: one interpolation synthetic row from two
distinct uniformly sampled source rows (degenerating to a copy when the
table has a single row). -/
def interpRow (profiles : List ColumnProfile) (rows : List Row)
    (g : ℕ → ℕ) (i : ℕ) : Row :=
  let n := rows.length
  if n ≤ 1 then rows.getD 0 []
  else
    let a := g (Nat.pair i 0) % n
    let b0 := g (Nat.pair i 1) % (n - 1)
    let b := if a ≤ b0 then b0 + 1 else b0
    let t : ℚ := ((g (Nat.pair i 2) % 101 : ℕ) : ℚ) / 100
    (((rows.getD a []).zip (rows.getD b [])).zip profiles).map
      (fun cp => blendCell t cp.2 cp.1.1 cp.1.2)

/-- Modelled from the spec: the `count` synthetic rows generated by the
configured method. -/
def syntheticRows (t : Table) (profiles : List ColumnProfile)
    (cfg : AugmentationConfig) (g : ℕ → ℕ) (count : ℕ) : List Row :=
  (List.range count).map (fun i =>
    match cfg.method with
    | Method.noise_injection => noiseRow cfg.noise_level profiles t.rows g i
    | Method.bootstrap_sampling => bootstrapRow t.rows g i
    | Method.interpolation => interpRow profiles t.rows g i)

/-- Modelled from the spec: `augment(table, profiles, config)` fails with
InvalidConfigError when target_row_count ≤ source row count, and
otherwise returns the source rows followed by
target_row_count − source_row_count synthetic rows. -/
def augment (t : Table) (profiles : List ColumnProfile)
    (cfg : AugmentationConfig) (g : ℕ → ℕ) : Except AugError Table :=
  if cfg.target_row_count ≤ t.rows.length then
    Except.error (AugError.invalidConfig "target_row_count must exceed source row count")
  else
    Except.ok ⟨t.rows ++ syntheticRows t profiles cfg g (cfg.target_row_count - t.rows.length)⟩

end DataVein

namespace DataVein

theorem syntheticRows_length (t : Table) (profiles : List ColumnProfile)
    (cfg : AugmentationConfig) (g : ℕ → ℕ) (count : ℕ) :
    (syntheticRows t profiles cfg g count).length = count := by
  simp [syntheticRows]

/-- Claim C1: for every source table with at least one row and every valid
AugmentationConfig (target above the source row count, noise level within
the documented band), `augment` succeeds and returns a table whose row
count equals target_row_count and whose first source_row_count rows are a
verbatim, order-preserving copy of the input rows, for each of the three
methods. -/
theorem augment_row_count_and_preserves_source (t : Table)
    (profiles : List ColumnProfile) (cfg : AugmentationConfig) (g : ℕ → ℕ)
    (hrows : 1 ≤ t.rows.length)
    (htarget : t.rows.length < cfg.target_row_count)
    (hnoise : 1/100 ≤ cfg.noise_level ∧ cfg.noise_level ≤ 1/2) :
    ∃ out : Table, augment t profiles cfg g = Except.ok out ∧
      out.rows.length = cfg.target_row_count ∧
      out.rows.take t.rows.length = t.rows := by
  refine ⟨⟨t.rows ++ syntheticRows t profiles cfg g (cfg.target_row_count - t.rows.length)⟩,
    ?_, ?_, ?_⟩
  · simp [augment, Nat.not_le.mpr htarget]
  · simp [syntheticRows_length, Nat.add_sub_cancel' (Nat.le_of_lt htarget)]
  · exact List.take_left t.rows _

/-- Witness for C1: a concrete one-column table of two rows augmented to
three rows by bootstrap sampling. -/
theorem augment_row_count_and_preserves_source_witness :
    ∃ out : Table,
      augment ⟨[[Cell.num 1], [Cell.num 2]]⟩ [] ⟨Method.bootstrap_sampling, 3, 1/10⟩ id
        = Except.ok out ∧
      out.rows.length = 3 ∧
      out.rows.take 2 = [[Cell.num 1], [Cell.num 2]] :=
  augment_row_count_and_preserves_source ⟨[[Cell.num 1], [Cell.num 2]]⟩ []
    ⟨Method.bootstrap_sampling, 3, 1/10⟩ id (by decide) (by decide) (by norm_num)

/-- Claim C2: whenever target_row_count is at most the source row count,
`augment` fails with InvalidConfigError instead of succeeding as a no-op. -/
theorem augment_rejects_small_target (t : Table) (profiles : List ColumnProfile)
    (cfg : AugmentationConfig) (g : ℕ → ℕ)
    (h : cfg.target_row_count ≤ t.rows.length) :
    ∃ msg, augment t profiles cfg g = Except.error (AugError.invalidConfig msg) := by
  refine ⟨"target_row_count must exceed source row count", ?_⟩
  simp [augment, h]

/-- Witness for C2: a two-row table with target_row_count 2 is rejected. -/
theorem augment_rejects_small_target_witness :
    ∃ msg, augment ⟨[[Cell.num 1], [Cell.num 2]]⟩ [] ⟨Method.noise_injection, 2, 1/10⟩ id
      = Except.error (AugError.invalidConfig msg) :=
  augment_rejects_small_target ⟨[[Cell.num 1], [Cell.num 2]]⟩ []
    ⟨Method.noise_injection, 2, 1/10⟩ id (by decide)

end DataVein

namespace DataVein

/-! ## Pipeline progress model

The backend pipeline source is not in the repository snapshot, so the
progress emissions are modelled from the specification, section 4.3: each
stage contributes exactly one entry event at percentage 0 followed by one
or more events non-decreasing up to 100. -/

/-- A progress event (spec: ProgressEvent). -/
structure ProgressEvent where
  pipeline_id : String
  step : String
  percentage : ℕ
  message : String
deriving Repr, DecidableEq

/-- The ordered stage names of the pipeline (spec section 4.3). -/
def stageOrder : List String :=
  ["validate", "profile", "augment", "parquetize", "finalize"]

/-- Percentages form a non-decreasing sequence. -/
def nondecr : List ℕ → Bool
  | [] => true
  | [_] => true
  | a :: b :: rest => a ≤ b && nondecr (b :: rest)

/-- Modelled from the spec: the events one stage emits — one entry event
at percentage 0, then the stage's in-progress percentages. -/
def stageBlock (pid : String) (name : String) (ps : List ℕ) : List ProgressEvent :=
  ⟨pid, name, 0, name ++ " started"⟩ :: ps.map (fun p => ⟨pid, name, p, name⟩)

/-- Modelled from the spec: the full event trace of a successful pipeline,
the concatenation of the stage blocks in stage order; `pss` gives each
stage's in-progress percentages. -/
def pipelineTrace (pid : String) (pss : List (List ℕ)) : List ProgressEvent :=
  ((stageOrder.zip pss).map (fun sp => stageBlock pid sp.1 sp.2)).flatten

/-- A stage's in-progress percentages are admissible: non-empty,
non-decreasing, bounded by 100 and ending at 100 (spec: one or more
events up to 100%). -/
def validStagePercents (ps : List ℕ) : Bool :=
  !ps.isEmpty && nondecr ps && ps.all (fun p => p ≤ 100) && ps.getLast? == some 100

/-- A successful run supplies admissible percentages for every stage. -/
def validRun (pss : List (List ℕ)) : Bool :=
  pss.length = stageOrder.length && pss.all validStagePercents

theorem nondecr_cons_of_head_le {a b : ℕ} {rest : List ℕ} (hab : a ≤ b)
    (h : nondecr (b :: rest) = true) : nondecr (a :: b :: rest) = true := by
  simp [nondecr, hab, h]

/-- Claim C3 counterexample: a run that is valid under the spec's
stage-emission rule (section 4.3) whose whole-lifetime percentage
sequence is not non-decreasing — each stage entry event restarts the
percentage at 0 after the previous stage reached 100. -/
theorem pipeline_percentage_not_lifetime_monotone :
    validRun [[100], [100], [100], [100], [100]] = true ∧
    nondecr ((pipelineTrace "p" [[100], [100], [100], [100], [100]]).map
      ProgressEvent.percentage) = false := by
  constructor
  · decide
  · rfl

/-- Claim C3 (amended): every percentage in a valid pipeline trace lies in
[0,100], and within each stage block the percentages are non-decreasing;
monotonicity holds per stage, not across the whole lifetime (the entry
event of each stage restarts at 0). -/
theorem pipeline_percentage_bounded_and_stagewise_monotone (pid : String)
    (pss : List (List ℕ)) (h : validRun pss = true) :
    (∀ e ∈ pipelineTrace pid pss, e.percentage ≤ 100) ∧
    (∀ sp ∈ stageOrder.zip pss,
      nondecr ((stageBlock pid sp.1 sp.2).map ProgressEvent.percentage) = true) := by
  have hall : ∀ ps ∈ pss, validStagePercents ps = true := by
    intro ps hps
    have := (Bool.and_eq_true .. ▸ h).2
    exact List.all_eq_true.mp this ps hps
  constructor
  · intro e he
    simp only [pipelineTrace, List.mem_flatten, List.mem_map] at he
    obtain ⟨l, ⟨sp, hsp, rfl⟩, hel⟩ := he
    have hv : validStagePercents sp.2 = true :=
      hall sp.2 (List.of_mem_zip hsp).2
    simp only [stageBlock, List.mem_cons, List.mem_map] at hel
    rcases hel with rfl | ⟨p, hp, rfl⟩
    · exact Nat.zero_le 100
    · have := (Bool.and_eq_true .. ▸ (Bool.and_eq_true .. ▸ hv).1).2
      exact of_decide_eq_true (List.all_eq_true.mp this p hp)
  · intro sp hsp
    have hv : validStagePercents sp.2 = true :=
      hall sp.2 (List.of_mem_zip hsp).2
    have hnd : nondecr sp.2 = true :=
      (Bool.and_eq_true .. ▸ (Bool.and_eq_true .. ▸ (Bool.and_eq_true .. ▸ hv).1).1).2
    have hmap : (stageBlock pid sp.1 sp.2).map ProgressEvent.percentage = 0 :: sp.2 := by
      simp only [stageBlock, List.map_cons, List.map_map]
      exact congrArg (0 :: ·) (List.map_id sp.2)
    rw [hmap]
    cases h2 : sp.2 with
    | nil => rfl
    | cons b rest =>
        exact nondecr_cons_of_head_le (Nat.zero_le b) (h2 ▸ hnd)

/-- Witness for C3 (amended): the bound and stage-wise monotonicity at a
concrete valid run. -/
theorem pipeline_percentage_bounded_witness :
    (∀ e ∈ pipelineTrace "p" [[50, 100], [100], [100], [100], [100]], e.percentage ≤ 100) ∧
    (∀ sp ∈ stageOrder.zip [[50, 100], [100], [100], [100], [100]],
      nondecr ((stageBlock "p" sp.1 sp.2).map ProgressEvent.percentage) = true) :=
  pipeline_percentage_bounded_and_stagewise_monotone "p"
    [[50, 100], [100], [100], [100], [100]] (by decide)

end DataVein


namespace DataVein

/-! ## Pipeline stage state machine (spec section 4.3) and the frontend
progress poller (DataAugmentation.tsx, checkProgress). -/

/-- Pipeline stages (spec: PipelineInstance.stage). -/
inductive Stage
  | pending
  | validate
  | profile
  | augment
  | parquetize
  | finalize
  | completed
  | failed
deriving Repr, DecidableEq

/-- Modelled from the spec: the successor of each stage in the linear
pipeline; terminal stages have none. -/
def nextStage : Stage → Option Stage
  | Stage.pending => some Stage.validate
  | Stage.validate => some Stage.profile
  | Stage.profile => some Stage.augment
  | Stage.augment => some Stage.parquetize
  | Stage.parquetize => some Stage.finalize
  | Stage.finalize => some Stage.completed
  | Stage.completed => none
  | Stage.failed => none

/-- COMPLETED and FAILED are the terminal stages. -/
def terminalStage : Stage → Bool
  | Stage.completed => true
  | Stage.failed => true
  | _ => false

/-- Modelled from the spec: the transition table — from a non-terminal
stage either to its successor on success or to FAILED on error; no
transition leaves a terminal stage. -/
def canTransition (s t : Stage) : Bool :=
  if terminalStage s then false
  else nextStage s == some t || t == Stage.failed

/-- Frontend progress payload (DataAugmentation.tsx, ProgressData). -/
structure ProgressData where
  step : String
  percentage : ℕ
  message : String
deriving Repr, DecidableEq

/-- Frontend result payload (DataAugmentation.tsx, ResultInfo). -/
structure ResultInfo where
  total_rows : ℕ
  original_rows : ℕ
  generated_rows : ℕ
deriving Repr, DecidableEq

/-- The response the progress poll receives: `ok` is the HTTP success
flag; a fetch rejection is modelled as a non-ok response (both leave the
client state untouched in the source). -/
structure ProgressResponse where
  ok : Bool
  progress : ProgressData
  result_info : Option ResultInfo
deriving Repr, DecidableEq

/-- The client state the poller touches (DataAugmentation.tsx state
hooks; `progressInterval` is the polling interval handle, `none` when no
interval is active). -/
structure ClientState where
  taskId : Option String
  progress : Option ProgressData
  resultInfo : Option ResultInfo
  isAugmenting : Bool
  progressInterval : Option ℕ
deriving Repr, DecidableEq

/-- The poller body (DataAugmentation.tsx, checkProgress): bail out when
no task is set; ignore non-ok responses; otherwise record the progress
payload (and result info when present), and on a terminal step clear the
polling interval and the augmenting flag. -/
def checkProgress (st : ClientState) (resp : ProgressResponse) : ClientState :=
  match st.taskId with
  | none => st
  | some _ =>
    if !resp.ok then st
    else
      let st1 := { st with progress := some resp.progress }
      let st2 := match resp.result_info with
        | some r => { st1 with resultInfo := some r }
        | none => st1
      if resp.progress.step == "completed" || resp.progress.step == "error" then
        { st2 with progressInterval := none, isAugmenting := false }
      else st2

/-- Claim C4: COMPLETED and FAILED admit no outgoing transition, and the
poller, on observing a step of "completed" or "error" in a successful
response, clears its polling interval (so no further progress requests
are issued), while on any other step it leaves the interval untouched
(polling continues). -/
theorem terminal_stages_stop_polling :
    (∀ t : Stage, canTransition Stage.completed t = false ∧
      canTransition Stage.failed t = false) ∧
    (∀ (st : ClientState) (resp : ProgressResponse) (tid : String),
      st.taskId = some tid → resp.ok = true →
      (resp.progress.step = "completed" ∨ resp.progress.step = "error") →
      (checkProgress st resp).progressInterval = none ∧
      (checkProgress st resp).isAugmenting = false) ∧
    (∀ (st : ClientState) (resp : ProgressResponse) (tid : String),
      st.taskId = some tid → resp.ok = true →
      resp.progress.step ≠ "completed" → resp.progress.step ≠ "error" →
      (checkProgress st resp).progressInterval = st.progressInterval) := by
  refine ⟨fun t => ⟨rfl, rfl⟩, ?_, ?_⟩
  · intro st resp tid htid hok hstep
    have hcond : (resp.progress.step == "completed" || resp.progress.step == "error") = true := by
      rcases hstep with h | h <;> simp [h]
    cases resp.result_info <;>
      simp [checkProgress, htid, hok, hcond]
  · intro st resp tid htid hok h1 h2
    have hcond : (resp.progress.step == "completed" || resp.progress.step == "error") = false := by
      simp [h1, h2]
    cases hri : resp.result_info <;>
      simp [checkProgress, htid, hok, hcond, hri]

/-- Witness for C4: at a concrete state and completed response the
interval is cleared. -/
theorem terminal_stages_stop_polling_witness :
    (checkProgress ⟨some "t1", none, none, true, some 7⟩
      ⟨true, ⟨"completed", 100, "done"⟩, none⟩).progressInterval = none ∧
    (checkProgress ⟨some "t1", none, none, true, some 7⟩
      ⟨true, ⟨"completed", 100, "done"⟩, none⟩).isAugmenting = false :=
  terminal_stages_stop_polling.2.1 ⟨some "t1", none, none, true, some 7⟩
    ⟨true, ⟨"completed", 100, "done"⟩, none⟩ "t1" rfl rfl (Or.inl rfl)

/-! ## Progress store query (spec section 4.5 / 6) -/

/-- The append-only progress log (spec: Progress Store). -/
structure ProgressStore where
  events : List ProgressEvent
deriving Repr, DecidableEq

/-- Query failure: the pipeline id is unknown. -/
inductive QueryError
  | notFound
deriving Repr, DecidableEq

/-- Modelled from the spec: the latest event appended for a pipeline. -/
def latest (store : ProgressStore) (pid : String) : Option ProgressEvent :=
  (store.events.filter (fun e => e.pipeline_id == pid)).getLast?

/-- Modelled from the spec: `get_progress` returns the latest event or an
explicit NotFound — never a raw exception. -/
def get_progress (store : ProgressStore) (pid : String) :
    Except QueryError ProgressEvent :=
  match latest store pid with
  | some e => Except.ok e
  | none => Except.error QueryError.notFound

/-- Claim C8: every progress query yields either a ProgressEvent or an
explicit NotFound; and the client poller leaves its state unchanged on
every non-ok response while surfacing exactly the returned payload on an
ok response. -/
theorem progress_query_total_and_poller_skips_errors :
    (∀ (store : ProgressStore) (pid : String),
      (∃ e, get_progress store pid = Except.ok e) ∨
      get_progress store pid = Except.error QueryError.notFound) ∧
    (∀ (st : ClientState) (resp : ProgressResponse),
      resp.ok = false → checkProgress st resp = st) ∧
    (∀ (st : ClientState) (resp : ProgressResponse) (tid : String),
      st.taskId = some tid → resp.ok = true →
      (checkProgress st resp).progress = some resp.progress) := by
  refine ⟨?_, ?_, ?_⟩
  · intro store pid
    cases h : latest store pid with
    | some e => exact Or.inl ⟨e, by simp [get_progress, h]⟩
    | none => exact Or.inr (by simp [get_progress, h])
  · intro st resp hok
    cases htid : st.taskId <;> simp [checkProgress, htid, hok]
  · intro st resp tid htid hok
    cases hri : resp.result_info <;>
      cases hcond : (resp.progress.step == "completed" || resp.progress.step == "error") <;>
        simp [checkProgress, htid, hok, hri, hcond]

/-- Witness for C8: a non-ok response leaves a concrete state unchanged. -/
theorem progress_query_total_witness :
    checkProgress ⟨some "t1", none, none, true, some 7⟩
      ⟨false, ⟨"augment", 40, "working"⟩, none⟩
      = ⟨some "t1", none, none, true, some 7⟩ :=
  progress_query_total_and_poller_skips_errors.2.1
    ⟨some "t1", none, none, true, some 7⟩ ⟨false, ⟨"augment", 40, "working"⟩, none⟩ rfl

end DataVein

namespace DataVein

/-! ## File-input admission (DataAugmentation.tsx, the file input's accept
attribute) -/

/-- A filename ends with the given extension string. -/
def endsWithExt (filename ext : String) : Bool :=
  ext.data.isSuffixOf filename.data

/-- The extensions enumerated by the augmentation page's file input
accept attribute (DataAugmentation.tsx). -/
def dataAugAcceptExts : List String :=
  [".csv", ".tsv", ".txt", ".json", ".xlsx", ".xls", ".parquet"]

/-- The file input admits a file when its name ends with one of the
accept-attribute extensions. -/
def fileInputAdmits (filename : String) : Bool :=
  dataAugAcceptExts.any (fun ext => endsWithExt filename ext)

/-- The extension set the spec sentence names (CSV, JSON, NDJSON, Excel,
Parquet), stated for comparison with the source's accept list. -/
def specFormatExts : List String :=
  [".csv", ".json", ".ndjson", ".xlsx", ".xls", ".parquet"]

/-- Admission under the spec's format list. -/
def specAdmits (filename : String) : Bool :=
  specFormatExts.any (fun ext => endsWithExt filename ext)

/-- Claim C5 counterexample: the file input admits a .tsv file, which is
in none of the spec's five formats, and does not admit a .ndjson file,
which the spec's list includes. -/
theorem accept_list_differs_from_spec_formats :
    fileInputAdmits "data.tsv" = true ∧ specAdmits "data.tsv" = false ∧
    specAdmits "data.ndjson" = true ∧ fileInputAdmits "data.ndjson" = false := by
  decide

/-- Claim C5 (amended): the augmentation page's file input admits a file
exactly when its name ends with one of .csv, .tsv, .txt, .json, .xlsx,
.xls, .parquet — TSV and TXT beyond the spec's format list, and no
.ndjson. -/
theorem fileInputAdmits_iff (f : String) :
    fileInputAdmits f = true ↔
      (".csv".data <:+ f.data ∨ ".tsv".data <:+ f.data ∨ ".txt".data <:+ f.data ∨
       ".json".data <:+ f.data ∨ ".xlsx".data <:+ f.data ∨ ".xls".data <:+ f.data ∨
       ".parquet".data <:+ f.data) := by
  simp [fileInputAdmits, dataAugAcceptExts, endsWithExt, List.any_cons, List.any_nil,
    List.isSuffixOf_iff_suffix]

/-! ## Noise level state and the augmentation request
(DataAugmentation.tsx, noiseLevel state hook, the noise slider and
startAugmentation) -/

/-- The initial client noise level, `useState<number>(0.1)`. -/
def noiseLevelInit : ℚ := 1/10

/-- The slider's lower bound, the range input's min="0.01". -/
def noiseSliderMin : ℚ := 1/100

/-- The slider's upper bound, the range input's max="0.5". -/
def noiseSliderMax : ℚ := 1/2

/-- The noise level after a sequence of slider updates: each update
replaces the stored value (setNoiseLevel(parseFloat(e.target.value))). -/
def applySliderEvents (evs : List ℚ) : ℚ :=
  evs.foldl (fun _ v => v) noiseLevelInit

/-- The form data startAugmentation submits: the method, the target size
only when the stored target is set and non-zero (JS truthiness of
`if (targetSize)`), and always the noise level. -/
def augmentFormData (selectedMethod : String) (targetSize : Option ℤ)
    (noiseLevel : ℚ) : List (String × String) :=
  [("method", selectedMethod)] ++
  (match targetSize with
    | some v => if v = 0 then [] else [("target_size", toString v)]
    | none => []) ++
  [("noise_level", toString noiseLevel)]

/-- The noise slider is rendered only when noise_injection is the
selected method (DataAugmentation.tsx, the conditional block). -/
def noiseSliderRendered (selectedMethod : String) : Bool :=
  selectedMethod == "noise_injection"

theorem applySliderEvents_default_or_mem (evs : List ℚ) :
    applySliderEvents evs = noiseLevelInit ∨ applySliderEvents evs ∈ evs := by
  have h : ∀ (l : List ℚ) (init : ℚ),
      l.foldl (fun _ v => v) init = init ∨ l.foldl (fun _ v => v) init ∈ l := by
    intro l
    induction l with
    | nil => intro init; exact Or.inl rfl
    | cons a t ih =>
        intro init
        rcases ih a with h | h
        · exact Or.inr (by simp [List.foldl_cons, h])
        · exact Or.inr (List.mem_cons_of_mem a h)
  exact h evs noiseLevelInit

/-- Claim C6: when every slider update carries a value within the
slider's [0.01, 0.5] bounds, the stored noise level stays within
[0.01, 0.5] (it starts at 0.1), and the request startAugmentation builds
submits exactly that value as noise_level. -/
theorem noise_level_within_slider_bounds (evs : List ℚ)
    (h : ∀ v ∈ evs, noiseSliderMin ≤ v ∧ v ≤ noiseSliderMax) :
    noiseSliderMin ≤ applySliderEvents evs ∧
    applySliderEvents evs ≤ noiseSliderMax ∧
    ∀ m t, ("noise_level", toString (applySliderEvents evs))
      ∈ augmentFormData m t (applySliderEvents evs) := by
  have hrange : noiseSliderMin ≤ applySliderEvents evs ∧
      applySliderEvents evs ≤ noiseSliderMax := by
    rcases applySliderEvents_default_or_mem evs with hd | hm
    · rw [hd]
      constructor <;> norm_num [noiseSliderMin, noiseLevelInit, noiseSliderMax]
    · exact h _ hm
  refine ⟨hrange.1, hrange.2, ?_⟩
  intro m t
  cases t with
  | none => simp [augmentFormData]
  | some v =>
      by_cases hv : v = 0 <;> simp [augmentFormData, hv]

/-- Witness for C6: two in-bounds slider updates land on 0.25, within
bounds and submitted. -/
theorem noise_level_within_slider_bounds_witness :
    noiseSliderMin ≤ applySliderEvents [1/5, 1/4] ∧
    applySliderEvents [1/5, 1/4] ≤ noiseSliderMax ∧
    ∀ m t, ("noise_level", toString (applySliderEvents [1/5, 1/4]))
      ∈ augmentFormData m t (applySliderEvents [1/5, 1/4]) :=
  noise_level_within_slider_bounds [1/5, 1/4] (by
    intro v hv
    simp only [List.mem_cons, List.mem_singleton] at hv
    rcases hv with rfl | rfl | h
    · constructor <;> norm_num [noiseSliderMin, noiseSliderMax]
    · constructor <;> norm_num [noiseSliderMin, noiseSliderMax]
    · cases h)

/-- Claim C7 counterexample: a request built for bootstrap_sampling still
carries a noise_level field — startAugmentation appends noise_level
unconditionally. -/
theorem bootstrap_request_carries_noise_level :
    ("noise_level", toString ((1 : ℚ)/10))
      ∈ augmentFormData "bootstrap_sampling" none (1/10) := by
  simp [augmentFormData]

/-- Claim C7 (amended): every request carries the current noise_level
regardless of the selected method; only the slider that edits it is
rendered solely for noise_injection (and per the spec only
noise_injection consumes the value server-side). -/
theorem every_request_carries_noise_level (m : String) (t : Option ℤ) (nl : ℚ) :
    ("noise_level", toString nl) ∈ augmentFormData m t nl ∧
    noiseSliderRendered "bootstrap_sampling" = false ∧
    noiseSliderRendered "interpolation" = false ∧
    noiseSliderRendered "noise_injection" = true := by
  refine ⟨?_, by decide, by decide, by decide⟩
  cases t with
  | none => simp [augmentFormData]
  | some v => by_cases hv : v = 0 <;> simp [augmentFormData, hv]

end DataVein

namespace DataVein

/-! ## Target-size input handling (DataAugmentation.tsx, the target size
input's onChange and startAugmentation) -/

/-- The natural number denoted by a list of decimal digit characters. -/
def natFromDigits (ds : List Char) : ℕ :=
  ds.foldl (fun a c => 10 * a + (c.toNat - 48)) 0

/-- JavaScript parseInt on the input string, base 10: skip leading
whitespace, an optional sign, then read leading decimal digits; `none`
models NaN (no digits). -/
def jsParseInt (s : String) : Option ℤ :=
  match s.data.dropWhile Char.isWhitespace with
  | '-' :: rest =>
      let ds := rest.takeWhile Char.isDigit
      if ds.isEmpty then none else some (-(natFromDigits ds : ℤ))
  | '+' :: rest =>
      let ds := rest.takeWhile Char.isDigit
      if ds.isEmpty then none else some ((natFromDigits ds : ℤ))
  | rest =>
      let ds := rest.takeWhile Char.isDigit
      if ds.isEmpty then none else some ((natFromDigits ds : ℤ))

/-- The stored target after the input's onChange,
setTargetSize(parseInt(e.target.value) || null): NaN and 0 are falsy, so
both store null. -/
def targetFromInput (s : String) : Option ℤ :=
  match jsParseInt s with
  | none => none
  | some n => if n = 0 then none else some n

/-- Claim C9: an entered target of 0 or any non-numeric value is stored
as null, and the request startAugmentation builds then carries no
target_size field at all. -/
theorem invalid_target_dropped (s : String)
    (h : jsParseInt s = none ∨ jsParseInt s = some 0) :
    targetFromInput s = none ∧
    ∀ (m : String) (nl : ℚ) (v : String),
      ("target_size", v) ∉ augmentFormData m (targetFromInput s) nl := by
  have ht : targetFromInput s = none := by
    rcases h with h | h <;> simp [targetFromInput, h]
  refine ⟨ht, ?_⟩
  intro m nl v
  rw [ht]
  simp [augmentFormData]

/-- Witness for C9: the non-numeric entry "abc" is dropped and the built
request has no target_size field. -/
theorem invalid_target_dropped_witness :
    targetFromInput "abc" = none ∧
    ∀ (m : String) (nl : ℚ) (v : String),
      ("target_size", v) ∉ augmentFormData m (targetFromInput "abc") nl :=
  invalid_target_dropped "abc" (Or.inl (by decide))

/-! ## File size formatting (FileUpload.tsx, formatFileSize) -/

/-- The unit names of formatFileSize. -/
def fileSizeUnits : List String := ["Bytes", "KB", "MB", "GB"]

/-- Math.floor(Math.log(bytes) / Math.log(1024)) at exact real
arithmetic. -/
def sizeExponent (n : ℕ) : ℕ := Nat.log 1024 n

/-- Render a non-negative count of hundredths the way JavaScript prints
parseFloat(x.toFixed(2)): at most two fraction digits, trailing zeros
trimmed. -/
def renderHundredths (m : ℤ) : String :=
  let whole := m / 100
  let frac := m % 100
  if frac = 0 then toString whole
  else if frac % 10 = 0 then toString whole ++ "." ++ toString (frac / 10)
  else if frac < 10 then toString whole ++ ".0" ++ toString frac
  else toString whole ++ "." ++ toString frac

/-- formatFileSize (FileUpload.tsx): '0 Bytes' for 0; otherwise the byte
count scaled into the unit indexed by the floored log, rounded to two
decimals. -/
def formatFileSize (n : ℕ) : String :=
  if n = 0 then "0 Bytes"
  else
    renderHundredths (round ((n : ℚ) / 1024 ^ sizeExponent n * 100)) ++ " " ++
      fileSizeUnits.getD (sizeExponent n) "undefined"

/-- Claim C10: formatFileSize is total on non-negative byte counts: it
returns exactly "0 Bytes" for 0, and for every positive byte count below
1024^4 it returns a decimal with at most two fraction digits followed by
one of the units Bytes, KB, MB, GB. -/
theorem formatFileSize_total_and_unit_bounded :
    formatFileSize 0 = "0 Bytes" ∧
    ∀ n : ℕ, 0 < n → n < 1024 ^ 4 →
      sizeExponent n < fileSizeUnits.length ∧
      ∃ (m : ℤ) (u : String), 0 ≤ m ∧ u ∈ fileSizeUnits ∧
        formatFileSize n = renderHundredths m ++ " " ++ u := by
  constructor
  · rfl
  · intro n h0 h4
    have hne : n ≠ 0 := Nat.pos_iff_ne_zero.mp h0
    have hlog : sizeExponent n < 4 := Nat.log_lt_of_lt_pow hne h4
    refine ⟨by simpa [fileSizeUnits] using hlog, ?_⟩
    refine ⟨round ((n : ℚ) / 1024 ^ sizeExponent n * 100),
      fileSizeUnits.getD (sizeExponent n) "undefined", ?_, ?_, ?_⟩
    · rw [round_eq]
      apply Int.floor_nonneg.mpr
      positivity
    · have hi := hlog
      set i := sizeExponent n with hidef
      interval_cases i <;> simp [fileSizeUnits]
    · simp [formatFileSize, hne]

/-- Witness for C10: 2048 bytes format with a unit from the list. -/
theorem formatFileSize_total_witness :
    sizeExponent 2048 < fileSizeUnits.length ∧
    ∃ (m : ℤ) (u : String), 0 ≤ m ∧ u ∈ fileSizeUnits ∧
      formatFileSize 2048 = renderHundredths m ++ " " ++ u :=
  formatFileSize_total_and_unit_bounded.2 2048 (by norm_num) (by norm_num)

end DataVein
